import Mathlib

/-
  Shallow embedding of the SQL safety gate of `src/groq_trial2.py`.

  The embedding works on `List Char` (Lean strings are lists of Unicode
  code points).  Python's Unicode case mapping, whitespace class and the
  regex classes `\w` / `\b` are modelled by their ASCII behaviour
  (`Char.toLower`, `Char.isWhitespace`, `Char.isAlphanum`), which agrees
  with Python on all ASCII text; SQL keywords and fence markers are ASCII.
-/

namespace SqlGate

/-- The backtick character (code point 96), written via its code point. -/
def backtick : Char := Char.ofNat 96

/-- Test for the backtick character. -/
def isTick (c : Char) : Bool := c == backtick

/-- Whitespace, as stripped by Python `str.strip()` (ASCII model). -/
def isWS (c : Char) : Bool := c.isWhitespace

/-- Word characters of the regex class `\w` (ASCII model): letters,
digits and underscore.  Used by the word-boundary assertion `\b`. -/
def isWordChar (c : Char) : Bool := c.isAlphanum || c == '_'

/-- Python `str.lower()` (ASCII model), characterwise. -/
def toLowerList (l : List Char) : List Char := l.map Char.toLower

/-- Remove trailing whitespace (the right half of Python `str.strip()`). -/
def dropTrailWS (l : List Char) : List Char := (l.reverse.dropWhile isWS).reverse

/-- Python `str.strip()`: remove leading and trailing whitespace. -/
def pyStrip (l : List Char) : List Char := dropTrailWS (l.dropWhile isWS)

/-- Case-insensitive test for the three characters `s` `q` `l`, the
language tag of the fence marker (the `IGNORECASE` flag of the regex). -/
def isSqlTag (s q t : Char) : Bool :=
  s.toLower == 's' && q.toLower == 'q' && t.toLower == 'l'

/-- `re.sub(r"` ``sql|`` `", "", sql, flags=re.IGNORECASE)` from
`sanitize_sql` (line 72 of `src/groq_trial2.py`): scan left to right; at
each position first try to match three backticks followed by the
case-insensitive tag `sql`, then three backticks alone; on a match remove
it and continue after it, otherwise keep the character and move on. -/
def reSubFence : List Char → List Char
  | a :: b :: c :: s :: q :: t :: rest =>
    if isTick a && isTick b && isTick c then
      if isSqlTag s q t then reSubFence rest
      else reSubFence (s :: q :: t :: rest)
    else a :: reSubFence (b :: c :: s :: q :: t :: rest)
  | a :: b :: c :: rest =>
    if isTick a && isTick b && isTick c then reSubFence rest
    else a :: reSubFence (b :: c :: rest)
  | a :: rest => a :: reSubFence rest
  | [] => []

/-- `sql.replace("` `", "")` from `sanitize_sql` (line 73): remove every
backtick character. -/
def removeTicks (l : List Char) : List Char := l.filter (fun c => !(isTick c))

/-- `sanitize_sql` (lines 71-74 of `src/groq_trial2.py`): remove fence
markers, then all backticks, then strip surrounding whitespace. -/
def sanitize_sql (s : String) : String := ⟨pyStrip (removeTicks (reSubFence s.data))⟩

/-- The two failure modes of `validate_sql`:
`NotAReadQuery` is `ValueError("Only SELECT queries allowed")` (line 79),
`ForbiddenKeyword` is `ValueError("Unsafe SQL detected")` (line 81). -/
inductive GateError
  | NotAReadQuery
  | ForbiddenKeyword
deriving DecidableEq, Repr

/-- Decidable equality of `Except` results, so that concrete runs of the
gate can be checked by `decide`. -/
instance {ε α : Type} [DecidableEq ε] [DecidableEq α] : DecidableEq (Except ε α) :=
  fun x y =>
    match x, y with
    | .ok a, .ok b => if h : a = b then .isTrue (by rw [h]) else .isFalse (by simp [h])
    | .error a, .error b => if h : a = b then .isTrue (by rw [h]) else .isFalse (by simp [h])
    | .ok _, .error _ => .isFalse (by simp)
    | .error _, .ok _ => .isFalse (by simp)

/-- The alternatives of `FORBIDDEN_SQL_PATTERN` (line 22 of
`src/groq_trial2.py`). -/
def FORBIDDEN_SQL_KEYWORDS : List (List Char) :=
  ["insert".data, "update".data, "delete".data, "drop".data, "alter".data,
   "truncate".data, "exec".data, "merge".data, "create".data]

/-- The character just before position `i`, if any. -/
def charBefore (l : List Char) (i : Nat) : Option Char :=
  if i = 0 then none else l[i-1]?

/-- The regex word-boundary assertion `\b` holds just before position `i`
of `l`, given that a word character follows (keyword characters are all
word characters): the preceding character, if any, is not a word character. -/
def wordBoundaryBefore (l : List Char) (i : Nat) : Bool :=
  match charBefore l i with
  | none => true
  | some c => !(isWordChar c)

/-- The regex word-boundary assertion `\b` holds just after a match ending
at position `i` (exclusive), given that a word character precedes: the
character at `i`, if any, is not a word character. -/
def wordBoundaryAfter (l : List Char) (i : Nat) : Bool :=
  match l[i]? with
  | none => true
  | some c => !(isWordChar c)

/-- Keyword `kw` occurs at position `i` of `l` as a standalone whole word:
it is a prefix of the suffix at `i` and has word boundaries on both sides. -/
def wholeWordAt (kw l : List Char) (i : Nat) : Bool :=
  kw.isPrefixOf (l.drop i) && wordBoundaryBefore l i
    && wordBoundaryAfter l (i + kw.length)

/-- `re.search(FORBIDDEN_SQL_PATTERN, l)` finds a match (line 80): some
denylisted keyword occurs somewhere in `l` as a standalone whole word.
`re.search` succeeds iff a match exists at some starting position; the
engine's scan order does not affect existence. -/
def hasForbidden (l : List Char) : Bool :=
  FORBIDDEN_SQL_KEYWORDS.any fun kw =>
    (List.range (l.length + 1)).any fun i => wholeWordAt kw l i

/-- `sql_lower.startswith("select")` (line 78). -/
def startsWithSelect (l : List Char) : Bool := "select".data.isPrefixOf l

/-- `validate_sql` (lines 76-81 of `src/groq_trial2.py`): lower-case and
strip the text for inspection; reject with `NotAReadQuery` unless it
starts with `select`; then reject with `ForbiddenKeyword` if a denylisted
keyword occurs as a whole word; otherwise accept. -/
def validate_sql (s : String) : Except GateError Unit :=
  let sqlLower := pyStrip (toLowerList s.data)
  if !(startsWithSelect sqlLower) then .error .NotAReadQuery
  else if hasForbidden sqlLower then .error .ForbiddenKeyword
  else .ok ()

/-- The gating portion of `generate_sql` (lines 130-138): sanitize the raw
LLM output, validate it, and on success return the sanitized (not
lower-cased) text as the clean statement. -/
def gate (raw : String) : Except GateError String :=
  let sql := sanitize_sql raw
  match validate_sql sql with
  | .error e => .error e
  | .ok _ => .ok sql

/-- Observable database-layer actions of `execute_sql`, in order:
`get_connection()`, `cursor.execute(sql)` (with row materialisation),
`conn.close()`. -/
inductive DbAction
  | openConn
  | execQuery (sql : String)
  | closeConn
deriving DecidableEq, Repr

/-- `execute_sql` (lines 143-151 of `src/groq_trial2.py`): re-run
`validate_sql` first; only if it passes, open a connection, run the
statement and return its rows.  The database is abstracted as a pure
oracle `db` mapping a statement to its materialised rows; the returned
list records which database actions were performed. -/
def execute_sql {Row : Type} (db : String → List Row) (sql : String) :
    List DbAction × Except GateError (List Row) :=
  match validate_sql sql with
  | .error e => ([], .error e)
  | .ok _ => ([DbAction.openConn, DbAction.execQuery sql, DbAction.closeConn],
              .ok (db sql))

/-- Observable for the spec's guarantee on `strip_formatting`: the fence
marker (three consecutive backticks) occurs as a contiguous substring. -/
def hasFenceMarker (l : List Char) : Bool :=
  (List.range (l.length + 1)).any fun i =>
    [backtick, backtick, backtick].isPrefixOf (l.drop i)

/- Helper lemmas about the whitespace-stripping primitives. -/

lemma head?_dropWhile_not {α : Type} {p : α → Bool} (l : List α) (c : α)
    (h : (l.dropWhile p).head? = some c) : p c = false := by
  induction l with
  | nil => simp [List.dropWhile] at h
  | cons a t ih =>
    rw [List.dropWhile_cons] at h
    cases hpa : p a
    · rw [hpa] at h
      simp at h
      rw [← h]
      exact hpa
    · rw [hpa] at h
      simp at h
      exact ih h

lemma dropWhile_dropWhile_self {α : Type} {p : α → Bool} (l : List α) :
    (l.dropWhile p).dropWhile p = l.dropWhile p := by
  cases h : l.dropWhile p with
  | nil => simp
  | cons a t =>
    have hpa : p a = false := head?_dropWhile_not l a (by rw [h]; rfl)
    rw [List.dropWhile_cons, hpa]
    simp

lemma exists_ws_suffix (l : List Char) :
    l = dropTrailWS l ++ (l.reverse.takeWhile isWS).reverse ∧
    ∀ c ∈ (l.reverse.takeWhile isWS).reverse, isWS c = true := by
  constructor
  · have h1 : l.reverse = l.reverse.takeWhile isWS ++ l.reverse.dropWhile isWS :=
      (List.takeWhile_append_dropWhile _ _).symm
    calc l = l.reverse.reverse := (List.reverse_reverse l).symm
      _ = (l.reverse.takeWhile isWS ++ l.reverse.dropWhile isWS).reverse := by rw [← h1]
      _ = dropTrailWS l ++ (l.reverse.takeWhile isWS).reverse := by
          rw [List.reverse_append]; rfl
  · intro c hc
    rw [List.mem_reverse] at hc
    exact List.mem_takeWhile_imp hc

lemma isPrefixOf_dropTrailWS (kw l : List Char)
    (hnws : ∀ c ∈ kw, isWS c = false) :
    kw.isPrefixOf (dropTrailWS l) = kw.isPrefixOf l := by
  obtain ⟨heq, hws⟩ := exists_ws_suffix l
  cases hd : kw.isPrefixOf (dropTrailWS l)
  · cases hl : kw.isPrefixOf l
    · rfl
    · exfalso
      rw [List.isPrefixOf_iff_prefix] at hl
      rw [heq] at hl
      rcases List.prefix_or_prefix_of_prefix hl
          (List.prefix_append (dropTrailWS l) (l.reverse.takeWhile isWS).reverse) with hp | hp
      · rw [← List.isPrefixOf_iff_prefix] at hp
        rw [hd] at hp
        exact Bool.false_ne_true hp
      · obtain ⟨t, ht⟩ := hp
        cases t with
        | nil =>
          rw [List.append_nil] at ht
          have : kw.isPrefixOf (dropTrailWS l) = true := by
            rw [List.isPrefixOf_iff_prefix, ← ht]
          rw [hd] at this
          exact Bool.false_ne_true this
        | cons c t2 =>
          have hckw : c ∈ kw := by
            rw [← ht]
            exact List.mem_append_right _ (List.mem_cons_self c t2)
          have hcw : c ∈ (l.reverse.takeWhile isWS).reverse := by
            rw [← ht] at hl
            rw [List.prefix_append_right_inj] at hl
            obtain ⟨u, hu⟩ := hl
            rw [← hu]
            exact List.mem_append_left _ (List.mem_cons_self c t2)
          have h1 := hnws c hckw
          have h2 := hws c hcw
          rw [h1] at h2
          exact Bool.false_ne_true h2
  · cases hl : kw.isPrefixOf l
    · exfalso
      rw [List.isPrefixOf_iff_prefix] at hd
      have : kw <+: l := by
        rw [heq]
        exact hd.trans (List.prefix_append _ _)
      rw [← List.isPrefixOf_iff_prefix] at this
      rw [hl] at this
      exact Bool.false_ne_true this
    · rfl

lemma dropTrailWS_dropTrailWS (l : List Char) :
    dropTrailWS (dropTrailWS l) = dropTrailWS l := by
  unfold dropTrailWS
  rw [List.reverse_reverse, dropWhile_dropWhile_self]

lemma head?_dropTrailWS (l : List Char) (c : Char)
    (h : (dropTrailWS l).head? = some c) : l.head? = some c := by
  obtain ⟨heq, -⟩ := exists_ws_suffix l
  cases hd : dropTrailWS l with
  | nil => rw [hd] at h; simp at h
  | cons a t =>
    rw [hd] at h
    simp at h
    rw [heq, hd, h]
    rfl

lemma head?_pyStrip (l : List Char) (c : Char)
    (h : (pyStrip l).head? = some c) : isWS c = false :=
  head?_dropWhile_not l c (head?_dropTrailWS (l.dropWhile isWS) c h)

lemma head?_reverse_pyStrip (l : List Char) (c : Char)
    (h : (pyStrip l).reverse.head? = some c) : isWS c = false := by
  have hrw : (pyStrip l).reverse = ((l.dropWhile isWS).reverse).dropWhile isWS := by
    show (dropTrailWS (l.dropWhile isWS)).reverse = _
    unfold dropTrailWS
    rw [List.reverse_reverse]
  rw [hrw] at h
  exact head?_dropWhile_not _ _ h

lemma dropWhile_pyStrip (l : List Char) :
    (pyStrip l).dropWhile isWS = pyStrip l := by
  cases h : pyStrip l with
  | nil => simp
  | cons a t =>
    have h1 : (pyStrip l).head? = some a := by rw [h]; rfl
    have h2 : isWS a = false := head?_pyStrip l a h1
    rw [List.dropWhile_cons, h2]
    simp

lemma pyStrip_idem (l : List Char) : pyStrip (pyStrip l) = pyStrip l := by
  show dropTrailWS ((pyStrip l).dropWhile isWS) = pyStrip l
  rw [dropWhile_pyStrip]
  show dropTrailWS (dropTrailWS (l.dropWhile isWS)) = pyStrip l
  rw [dropTrailWS_dropTrailWS]
  rfl

lemma mem_dropTrailWS {c : Char} {l : List Char} (h : c ∈ dropTrailWS l) : c ∈ l := by
  unfold dropTrailWS at h
  rw [List.mem_reverse] at h
  have := List.Sublist.mem h (List.dropWhile_sublist isWS)
  rw [List.mem_reverse] at this
  exact this

lemma mem_pyStrip {c : Char} {l : List Char} (h : c ∈ pyStrip l) : c ∈ l :=
  List.Sublist.mem (mem_dropTrailWS h) (List.dropWhile_sublist isWS)

/- Helper lemmas about the fence-removal pass. -/

lemma reSubFence_cons_of_not_tick (a : Char) (rest : List Char)
    (ha : isTick a = false) :
    reSubFence (a :: rest) = a :: reSubFence rest := by
  cases rest with
  | nil => simp [reSubFence]
  | cons b r1 =>
    cases r1 with
    | nil => simp [reSubFence]
    | cons c r2 =>
      cases r2 with
      | nil => simp [reSubFence, ha]
      | cons s r3 =>
        cases r3 with
        | nil => simp [reSubFence, ha]
        | cons q r4 =>
          cases r4 with
          | nil => simp [reSubFence, ha]
          | cons t r5 => simp [reSubFence, ha]

lemma reSubFence_eq_self {l : List Char} (h : ∀ c ∈ l, isTick c = false) :
    reSubFence l = l := by
  induction l with
  | nil => rfl
  | cons a rest ih =>
    rw [reSubFence_cons_of_not_tick a rest (h a (by simp))]
    rw [ih (fun x hx => h x (by simp [hx]))]

lemma removeTicks_eq_self {l : List Char} (h : ∀ c ∈ l, isTick c = false) :
    removeTicks l = l :=
  List.filter_eq_self.mpr (fun a ha => by rw [h a ha]; rfl)

lemma no_tick_sanitize (s : String) : ∀ c ∈ (sanitize_sql s).data, isTick c = false := by
  intro c hc
  have h1 : c ∈ removeTicks (reSubFence s.data) := mem_pyStrip hc
  rw [removeTicks, List.mem_filter] at h1
  simpa using h1.2

lemma hasFenceMarker_eq_false {l : List Char} (h : ∀ c ∈ l, isTick c = false) :
    hasFenceMarker l = false := by
  rw [hasFenceMarker, List.any_eq_false]
  intro i hi
  cases hp : [backtick, backtick, backtick].isPrefixOf (l.drop i)
  · simp
  · exfalso
    rw [List.isPrefixOf_iff_prefix] at hp
    have hb : backtick ∈ l.drop i := hp.sublist.mem (by simp)
    have hbl : backtick ∈ l := List.Sublist.mem hb (List.drop_sublist i l)
    have := h backtick hbl
    rw [isTick] at this
    simp at this

/- Claim theorems. -/

/-- Claim C1, counterexample: the input `drop table t` contains the
denylisted keyword `drop` as a standalone whole word (case-insensitively,
anywhere in the text), yet `validate_sql` does not fail with
`ForbiddenKeyword` — it fails with `NotAReadQuery`, because the read-only
prefix check runs first.  So the claim as stated is false. -/
theorem claim_C1_counterexample :
    hasForbidden (toLowerList "drop table t".data) = true ∧
    validate_sql "drop table t" = .error .NotAReadQuery ∧
    validate_sql "drop table t" ≠ .error .ForbiddenKeyword := by decide

/-- Claim C1, amended: for every input string that passes the read-only
prefix check (its lower-cased stripped form starts with `select`) and
contains a denylisted keyword as a standalone whole word in its
lower-cased stripped form, `validate_sql` fails with `ForbiddenKeyword` —
even when the keyword appears after a valid read-only prefix. -/
theorem claim_C1_amended_thm (s : String)
    (hsel : startsWithSelect (pyStrip (toLowerList s.data)) = true)
    (hkw : hasForbidden (pyStrip (toLowerList s.data)) = true) :
    validate_sql s = .error .ForbiddenKeyword := by
  simp only [validate_sql, hsel, hkw]
  rfl

/-- Claim C1, witness: the spec's own example `select * from t; drop table t`
passes the prefix check, contains `drop` as a whole word, and is rejected
with `ForbiddenKeyword`. -/
theorem claim_C1_amended_witness :
    validate_sql "select * from t; drop table t" = .error .ForbiddenKeyword :=
  claim_C1_amended_thm "select * from t; drop table t" (by decide) (by decide)

/-- Claim C2: every input whose lower-cased, leading-whitespace-trimmed
form does not start with `select` is rejected with `NotAReadQuery`; and
consequently every input accepted by `validate_sql` does start (after
lower-casing and leading-whitespace-trimming) with `select`. -/
theorem claim_C2_thm :
    (∀ s : String,
      "select".data.isPrefixOf ((toLowerList s.data).dropWhile isWS) = false →
      validate_sql s = .error .NotAReadQuery) ∧
    (∀ s : String, validate_sql s = .ok () →
      "select".data.isPrefixOf ((toLowerList s.data).dropWhile isWS) = true) := by
  have key : ∀ u : List Char,
      startsWithSelect (pyStrip u) = "select".data.isPrefixOf (u.dropWhile isWS) := by
    intro u
    show "select".data.isPrefixOf (dropTrailWS (u.dropWhile isWS)) = _
    exact isPrefixOf_dropTrailWS _ _ (by decide)
  constructor
  · intro s h
    have hsel : startsWithSelect (pyStrip (toLowerList s.data)) = false := by
      rw [key, h]
    simp only [validate_sql, hsel]
    rfl
  · intro s h
    rw [← key]
    cases hsel : startsWithSelect (pyStrip (toLowerList s.data))
    · exfalso
      simp only [validate_sql, hsel] at h
      simp at h
    · rfl

/-- Claim C2, witness: `update t` does not start with `select` and is
rejected with `NotAReadQuery`; `  SELECT 1` is accepted and its
lower-cased leading-trimmed form does start with `select`. -/
theorem claim_C2_witness :
    validate_sql "update t" = .error .NotAReadQuery ∧
    "select".data.isPrefixOf ((toLowerList "  SELECT 1".data).dropWhile isWS) = true :=
  ⟨claim_C2_thm.1 "update t" (by decide), claim_C2_thm.2 "  SELECT 1" (by decide)⟩

/-- Claim C3: for every input in whose lower-cased stripped form no
denylisted keyword occurs as a standalone whole word (in particular when a
keyword occurs only as a proper substring of a longer identifier),
`validate_sql` does not fail with `ForbiddenKeyword`. -/
theorem claim_C3_thm (s : String)
    (h : hasForbidden (pyStrip (toLowerList s.data)) = false) :
    validate_sql s ≠ .error .ForbiddenKeyword := by
  intro hcontra
  cases hsel : startsWithSelect (pyStrip (toLowerList s.data))
  · simp only [validate_sql, hsel] at hcontra
    simp at hcontra
  · simp only [validate_sql, hsel, h] at hcontra
    simp at hcontra

/-- Claim C3, witness: in `select createdDate from t` the keyword `create`
occurs only inside the identifier `createdDate`, and validation does not
fail with `ForbiddenKeyword` (in fact this statement is accepted). -/
theorem claim_C3_witness :
    validate_sql "select createdDate from t" ≠ .error .ForbiddenKeyword :=
  claim_C3_thm "select createdDate from t" (by decide)

/-- Claim C4: round-trip — whenever the gate accepts a raw LLM output,
the clean statement it returns is exactly the formatting-stripped input
`sanitize_sql raw`: original casing and literal content are preserved, and
the lower-casing done inside `validate_sql` is never reflected in the
returned statement. -/
theorem claim_C4_thm (raw out : String) (h : gate raw = .ok out) :
    out = sanitize_sql raw := by
  simp only [gate] at h
  cases hv : validate_sql (sanitize_sql raw) with
  | error e => rw [hv] at h; simp at h
  | ok u => rw [hv] at h; simp at h; rw [h]

/-- Claim C4, witness: a fenced mixed-case statement is returned with its
original casing, stripped of the fence and surrounding whitespace. -/
theorem claim_C4_witness :
    gate " ```sql\nSELECT Name FROM dbo.Employees;\n``` " =
      .ok "SELECT Name FROM dbo.Employees;" ∧
    "SELECT Name FROM dbo.Employees;" =
      sanitize_sql " ```sql\nSELECT Name FROM dbo.Employees;\n``` " :=
  ⟨by decide, claim_C4_thm " ```sql\nSELECT Name FROM dbo.Employees;\n``` "
    "SELECT Name FROM dbo.Employees;" (by decide)⟩

/-- Claim C5: the input `UPDATE dbo.Employees SET Salary = 0` fails with
`NotAReadQuery`, not `ForbiddenKeyword`, even though it also contains the
denylisted keyword `update` as a whole word: the read-only prefix check is
applied before the denylist check. -/
theorem claim_C5_thm :
    validate_sql "UPDATE dbo.Employees SET Salary = 0" = .error .NotAReadQuery ∧
    validate_sql "UPDATE dbo.Employees SET Salary = 0" ≠ .error .ForbiddenKeyword ∧
    hasForbidden (pyStrip (toLowerList "UPDATE dbo.Employees SET Salary = 0".data)) =
      true := by decide

/-- Claim C6: for every input, the output of `sanitize_sql` contains no
backtick character, contains no fence-marker substring (no run of three
backticks, hence also no fence with a language tag), and has neither a
leading nor a trailing whitespace character. -/
theorem claim_C6_thm (s : String) :
    (sanitize_sql s).data.all (fun c => !(isTick c)) = true ∧
    hasFenceMarker (sanitize_sql s).data = false ∧
    ((sanitize_sql s).data.head?.all fun c => !(isWS c)) = true ∧
    ((sanitize_sql s).data.reverse.head?.all fun c => !(isWS c)) = true := by
  refine ⟨?_, hasFenceMarker_eq_false (no_tick_sanitize s), ?_, ?_⟩
  · rw [List.all_eq_true]
    intro c hc
    rw [no_tick_sanitize s c hc]
    rfl
  · cases hh : (sanitize_sql s).data.head? with
    | none => rfl
    | some c =>
      show (!(isWS c)) = true
      rw [head?_pyStrip (removeTicks (reSubFence s.data)) c hh]
      rfl
  · cases hh : (sanitize_sql s).data.reverse.head? with
    | none => rfl
    | some c =>
      show (!(isWS c)) = true
      rw [head?_reverse_pyStrip (removeTicks (reSubFence s.data)) c hh]
      rfl

/-- Claim C7: `sanitize_sql` is idempotent — applying it twice yields the
same string as applying it once. -/
theorem claim_C7_thm (s : String) :
    sanitize_sql (sanitize_sql s) = sanitize_sql s := by
  have hnt : ∀ c ∈ (sanitize_sql s).data, isTick c = false := no_tick_sanitize s
  show (⟨pyStrip (removeTicks (reSubFence (sanitize_sql s).data))⟩ : String) =
    sanitize_sql s
  rw [reSubFence_eq_self hnt, removeTicks_eq_self hnt]
  have hps : pyStrip (sanitize_sql s).data = (sanitize_sql s).data :=
    pyStrip_idem (removeTicks (reSubFence s.data))
  rw [hps]

/-- Claim C8: the fenced input consisting of three backticks, the tag
`sql`, a newline, the statement `SELECT Name FROM dbo.Employees`, a
newline and a closing three-backtick fence is stripped by `sanitize_sql`
to exactly `SELECT Name FROM dbo.Employees`, and `validate_sql` accepts
that stripped text. -/
theorem claim_C8_thm :
    sanitize_sql "```sql\nSELECT Name FROM dbo.Employees\n```" =
      "SELECT Name FROM dbo.Employees" ∧
    validate_sql "SELECT Name FROM dbo.Employees" = .ok () := by decide

/-- Claim C9: `execute_sql` re-runs `validate_sql` on its argument before
any database interaction: whenever validation fails, `execute_sql`
propagates exactly that validation error and performs no database action
at all — no connection is opened, no statement is executed, no rows are
produced — whatever the database oracle would answer. -/
theorem claim_C9_thm {Row : Type} (db : String → List Row) (sql : String)
    (e : GateError) (h : validate_sql sql = .error e) :
    execute_sql db sql = ([], .error e) := by
  unfold execute_sql
  rw [h]

/-- Claim C9, witness: a mutating statement reaches no database action
even when `execute_sql` is called directly on it, with an oracle that
would return a row. -/
theorem claim_C9_witness :
    execute_sql (fun _ => ([0] : List Nat)) "DELETE FROM dbo.Employees" =
      ([], .error .NotAReadQuery) :=
  claim_C9_thm (fun _ => ([0] : List Nat)) "DELETE FROM dbo.Employees"
    .NotAReadQuery (by decide)

/-- Claim C10: the read-only check of `validate_sql` is a plain
string-prefix test, not a token test — every input whose lower-cased
stripped form begins with the six characters `select` passes it (is never
rejected with `NotAReadQuery`), even when those characters begin a longer
identifier, because no word boundary is required after the keyword. -/
theorem claim_C10_thm (s : String)
    (h : startsWithSelect (pyStrip (toLowerList s.data)) = true) :
    validate_sql s ≠ .error .NotAReadQuery := by
  intro hcontra
  cases hf : hasForbidden (pyStrip (toLowerList s.data))
  · simp only [validate_sql, h, hf] at hcontra
    simp at hcontra
  · simp only [validate_sql, h, hf] at hcontra
    simp at hcontra

/-- Claim C10, witness: `selection * from t` starts with the six
characters `select` inside the longer identifier `selection`, and
`validate_sql` does not reject it with `NotAReadQuery` (indeed it accepts
it). -/
theorem claim_C10_witness :
    validate_sql "selection * from t" ≠ .error .NotAReadQuery :=
  claim_C10_thm "selection * from t" (by decide)

end SqlGate
